import Mathlib

/-!
Verification of the DevDocs backend (FastAPI + SQLAlchemy) against its
natural-language specification.  The Python request handlers are shallowly
embedded as pure Lean functions over an explicit database state; external
collaborators (the jose JWT library, the sentence-transformers embedding
model, the pgvector distance operator) appear as abstract inputs or
function parameters, exactly at the boundary where the Python code calls
out to them.
-/

namespace DevDocs

-- ===========================================================================
-- Authentication: app/auth.py
-- ===========================================================================

/-- Claims of a decoded JWT payload, as returned by the external jose
library's decode call (`sub`, `email`, `role`, `exp` are the fields the
code reads via `TokenPayload`). -/
structure JoseClaims where
  sub : Option String
  email : Option String
  role : Option String
  exp : Option Int
deriving Repr, DecidableEq

/-- Abstract view of a bearer credential string: the outcomes of the
library calls `verify_token` makes on it.  `numDots` is the count of
dot characters in the raw string; `headerOk` says whether the first
dot-separated part base64-decodes to a JSON object; `alg` is that
object's `alg` entry (none when absent); `payloadOk` says whether the
payload part decodes structurally; `sigValidUnderSecret` says whether
the token's signature is valid under `SUPABASE_JWT_SECRET` for the
declared algorithm. -/
structure TokenParts where
  numDots : Nat
  headerOk : Bool
  alg : Option String
  payloadOk : Bool
  claims : JoseClaims
  sigValidUnderSecret : Bool
deriving Repr, DecidableEq

/-- Error outcomes of `verify_token`: an `HTTPException(status, detail)`
or an uncaught pydantic validation failure (raised by
`TokenPayload(**payload)` and not covered by the `except JWTError`
clause). -/
inductive AuthError where
  | httpError (status : Nat) (detail : String)
  | pydanticError
deriving Repr, DecidableEq

/-- The pydantic `TokenPayload` model (app/auth.py lines 45-50): `sub`
is required, the other fields optional. -/
structure TokenPayload where
  sub : String
  email : Option String
  role : Option String
  exp : Option Int
deriving Repr, DecidableEq

/-- Modelled from the documented behavior of the external jose library:
`jwt.decode(token, key="", options={verify_signature: False,
verify_aud: False, verify_exp: True})`.  Signature is ignored; a
structurally bad payload or an expired `exp` claim raises `JWTError`
(returned here as `none`). -/
def joseDecodeNoVerify (t : TokenParts) (now : Int) : Option JoseClaims :=
  if !t.payloadOk then none
  else match t.claims.exp with
    | some e => if e ≤ now then none else some t.claims
    | none => some t.claims

/-- Modelled from the documented behavior of the external jose library:
`jwt.decode(token, SUPABASE_JWT_SECRET, algorithms=["HS256"],
options={verify_aud: False, verify_signature: True, verify_exp: True})`.
Fails (`JWTError`, returned as `none`) when the payload is structurally
bad, when the token's declared algorithm is not in the allowed list
`["HS256"]`, when the signature is invalid under the pre-shared secret,
or when the token is expired. -/
def joseDecodeHS256 (t : TokenParts) (now : Int) : Option JoseClaims :=
  if !t.payloadOk then none
  else if t.alg ≠ some "HS256" then none
  else if !t.sigValidUnderSecret then none
  else match t.claims.exp with
    | some e => if e ≤ now then none else some t.claims
    | none => some t.claims

/-- Python's `x or default` on an optional string: `None` and the empty
string are both falsy. -/
def pyOrElse (o : Option String) (d : String) : String :=
  match o with
  | some s => if s = "" then d else s
  | none => d

/-- Python `str.startswith`, expressed over the character list so that
concrete instances evaluate by kernel reduction. -/
def pyStartsWith (s p : String) : Bool :=
  decide (s.data.take p.data.length = p.data)

deriving instance DecidableEq for Except

/-- `verify_token` (app/auth.py lines 62-143).  Checks the three-part
format, decodes the header to read the algorithm (default `HS256`),
branches: `ES*`/`RS*` algorithms decode without signature verification
(expiry still verified), everything else goes through the HS256 path
against the pre-shared secret.  `JWTError` becomes a 401; a decoded
payload lacking `sub` makes `TokenPayload(**payload)` raise a pydantic
validation error that no `except` clause catches. -/
def verify_token (t : TokenParts) (now : Int) : Except AuthError TokenPayload :=
  if t.numDots ≠ 2 then .error (.httpError 401 "Invalid token format")
  else if !t.headerOk then .error (.httpError 401 "Invalid token encoding")
  else
    let alg := t.alg.getD "HS256"
    let decoded := if pyStartsWith alg "ES" || pyStartsWith alg "RS" then
        joseDecodeNoVerify t now
      else joseDecodeHS256 t now
    match decoded with
    | none => .error (.httpError 401 "Could not validate credentials")
    | some c =>
      match c.sub with
      | none => .error .pydanticError
      | some s => .ok { sub := s, email := c.email, role := c.role, exp := c.exp }

/-- The identity handed to request handlers (app/auth.py `CurrentUser`). -/
structure CurrentUser where
  id : String
  email : Option String
  role : String
deriving Repr, DecidableEq

/-- Body of `get_current_user` after `verify_token` succeeds
(app/auth.py lines 177-181): `role` falls back to "authenticated" via
Python `or`. -/
def currentUserOfPayload (p : TokenPayload) : CurrentUser :=
  { id := p.sub, email := p.email, role := pyOrElse p.role "authenticated" }

/-- `get_current_user` (app/auth.py lines 149-181). -/
def get_current_user (t : TokenParts) (now : Int) : Except AuthError CurrentUser :=
  (verify_token t now).map currentUserOfPayload

/-- `get_current_user_optional` (app/auth.py lines 183-215): returns
`none` when no credential is supplied; otherwise verifies, catching
only `HTTPException` (converted to `none`).  Any other exception from
`verify_token` propagates. -/
def get_current_user_optional (cred : Option TokenParts) (now : Int) :
    Except AuthError (Option CurrentUser) :=
  match cred with
  | none => .ok none
  | some t =>
    match verify_token t now with
    | .ok p => .ok (some (currentUserOfPayload p))
    | .error (.httpError _ _) => .ok none
    | .error .pydanticError => .error .pydanticError

-- Concrete tokens used in witnesses and exhibits.

/-- A well-formed unexpired ES256 token whose signature is not valid
under the local secret. -/
def tokenES : TokenParts :=
  { numDots := 2, headerOk := true, alg := some "ES256", payloadOk := true,
    claims := { sub := some "user-1", email := some "a@b.c", role := some "authenticated",
                exp := some 100 },
    sigValidUnderSecret := false }

/-- An expired ES256 token. -/
def tokenESExpired : TokenParts :=
  { tokenES with claims := { tokenES.claims with exp := some 5 } }

/-- A well-formed HS256 token with a valid signature under the secret. -/
def tokenHS : TokenParts :=
  { numDots := 2, headerOk := true, alg := some "HS256", payloadOk := true,
    claims := { sub := some "user-1", email := none, role := none, exp := some 100 },
    sigValidUnderSecret := true }

/-- A credential that is not a three-part dot-separated token. -/
def tokenMalformed : TokenParts :=
  { tokenHS with numDots := 1 }

/-- An HS256 token whose signature does not validate against the secret. -/
def tokenBadSig : TokenParts :=
  { tokenHS with sigValidUnderSecret := false }

/-- An expired HS256 token with a valid signature. -/
def tokenHSExpired : TokenParts :=
  { tokenHS with claims := { tokenHS.claims with exp := some 5 } }

/-- A syntactically valid, unexpired, validly signed HS256 token whose
payload lacks the `sub` claim. -/
def tokenNoSub : TokenParts :=
  { tokenHS with claims := { tokenHS.claims with sub := none } }

-- ===========================================================================
-- Theorems for claims C3, C4, C5
-- ===========================================================================

/-- C3: Algorithm-selection policy of the token verifier.  For a
well-formed token (three parts, decodable header): if the declared
algorithm is in the asymmetric family (`ES*`/`RS*`), the outcome of
`verify_token` is independent of whether the signature validates
against the local secret, yet an expired token is still rejected; if
the declared algorithm is not in the asymmetric family (the symmetric
path), `verify_token` can only succeed when the signature is valid
under the service's pre-shared secret. -/
theorem verify_token_algorithm_policy (t : TokenParts) (now : Int)
    (hdots : t.numDots = 2) (hhdr : t.headerOk = true) :
    ((pyStartsWith (t.alg.getD "HS256") "ES" || pyStartsWith (t.alg.getD "HS256") "RS") = true →
      (∀ b, verify_token { t with sigValidUnderSecret := b } now = verify_token t now) ∧
      (t.payloadOk = true → ∀ e, t.claims.exp = some e → e ≤ now →
        verify_token t now = .error (.httpError 401 "Could not validate credentials"))) ∧
    ((pyStartsWith (t.alg.getD "HS256") "ES" || pyStartsWith (t.alg.getD "HS256") "RS") = false →
      ∀ p, verify_token t now = .ok p → t.sigValidUnderSecret = true) := by
  constructor
  · intro hasym
    constructor
    · intro b
      simp only [verify_token, joseDecodeNoVerify, hdots, hhdr] at *
      simp [hasym]
    · intro hp e hexp hle
      simp only [verify_token, joseDecodeNoVerify, hdots, hhdr]
      simp [hasym, hp, hexp, hle]
  · intro hsym p hok
    by_contra hsig
    simp only [Bool.not_eq_true] at hsig
    simp only [verify_token, joseDecodeHS256, hdots, hhdr, hsym] at hok
    by_cases hp : t.payloadOk <;>
      by_cases halg : t.alg = some "HS256" <;>
        simp [hp, halg, hsig] at hok

/-- Witness for C3: concrete instances of both branches — the ES256
token's outcome ignores the signature bit and the expired ES256 token
is rejected with a 401. -/
theorem verify_token_algorithm_policy_witness :
    verify_token { tokenES with sigValidUnderSecret := true } 10 = verify_token tokenES 10 ∧
    verify_token tokenESExpired 10 = .error (.httpError 401 "Could not validate credentials") := by
  refine ⟨((verify_token_algorithm_policy tokenES 10 rfl rfl).1 (by decide)).1 true, ?_⟩
  exact ((verify_token_algorithm_policy tokenESExpired 10 rfl rfl).1
    (by decide)).2 rfl 5 rfl (by decide)

/-- C4 exhibit: the first three failure cases produce
`HTTPException(401, ...)` as claimed, but a syntactically valid,
validly signed, unexpired token whose payload lacks `sub` makes
`verify_token` raise an uncaught pydantic validation error (the
in-function `if token_data.sub is None` 401-check is unreachable), so
the request fails with the generic 500 handler, not a 401. -/
theorem verify_token_missing_sub_not_401 :
    verify_token tokenMalformed 10 = .error (.httpError 401 "Invalid token format") ∧
    verify_token tokenBadSig 10 = .error (.httpError 401 "Could not validate credentials") ∧
    verify_token tokenHSExpired 10 = .error (.httpError 401 "Could not validate credentials") ∧
    verify_token tokenNoSub 10 = .error .pydanticError ∧
    verify_token tokenNoSub 10 ≠ .error (.httpError 401 "Invalid authentication credentials") := by
  refine ⟨by decide, by decide, by decide, by decide, by decide⟩

/-- C5 exhibit: `get_current_user_optional` returns no identity when no
credential is supplied and when verification fails with an
`HTTPException`, but the pydantic validation error raised for a
missing-`sub` payload propagates out instead of being converted to
`None` — the dependency does raise. -/
theorem optional_auth_propagates_validation_error :
    get_current_user_optional none 10 = .ok none ∧
    get_current_user_optional (some tokenBadSig) 10 = .ok none ∧
    get_current_user_optional (some tokenHS) 10 =
      .ok (some { id := "user-1", email := none, role := "authenticated" }) ∧
    get_current_user_optional (some tokenNoSub) 10 = .error .pydanticError := by
  refine ⟨by decide, by decide, by decide, by decide⟩

-- ===========================================================================
-- Data model: relational rows and database state
-- ===========================================================================

/-- Embedding vectors as stored in the nullable pgvector column.  The
numeric content is opaque to the handlers (they only store, copy and
test truthiness), so the component type is immaterial. -/
abbrev Embedding := List Int

/-- A `users` row (app/models/user.py is absent from the source tree;
fields are the ones the handlers under src/ read and write). -/
structure UserRow where
  id : Nat
  auth_id : String
  email : String
  full_name : String
  is_active : Bool
  is_verified : Bool
  last_login_at : Nat
deriving Repr, DecidableEq

/-- A `solutions` row. -/
structure SolutionRow where
  id : Nat
  user_id : Nat
  title : String
  description : String
  code : String
  language : String
  tags : List String
  embedding : Option Embedding
  is_archived : Bool
  created_at : Nat
deriving Repr, DecidableEq

/-- A `bookmarks` row. -/
structure BookmarkRow where
  id : Nat
  user_id : Nat
  solution_id : Nat
  created_at : Nat
deriving Repr, DecidableEq

/-- Database state: the three tables plus a fresh-surrogate-id source
standing for the id generator of the store. -/
structure DB where
  users : List UserRow
  solutions : List SolutionRow
  bookmarks : List BookmarkRow
  nextId : Nat
deriving Repr, DecidableEq

/-- An `HTTPException` as raised by the routers. -/
structure HttpError where
  status : Nat
  detail : String
deriving Repr, DecidableEq

/-- The routers' uniform not-found response for solutions. -/
def solutionNotFound : HttpError := ⟨404, "Solution not found"⟩

-- ===========================================================================
-- User provisioning: get_or_create_user (app/auth.py lines 221-267)
-- ===========================================================================

/-- `get_or_create_user`: look up the user by `auth_id`; if found,
refresh `last_login_at` and persist; otherwise insert a new row seeded
from the verified identity's email (Python `email or ""`), empty
full name, `is_active=True`, `is_verified=True`, `last_login_at=now`.
Returns the user together with the committed state. -/
def get_or_create_user (cu : CurrentUser) (db : DB) (now : Nat) : UserRow × DB :=
  match db.users.find? (fun u => u.auth_id == cu.id) with
  | some u =>
    let u' : UserRow := { u with last_login_at := now }
    (u', { db with users := db.users.map (fun v => if v.id == u.id then u' else v) })
  | none =>
    let u : UserRow :=
      { id := db.nextId, auth_id := cu.id, email := pyOrElse cu.email "",
        full_name := "", is_active := true, is_verified := true, last_login_at := now }
    (u, { db with users := db.users ++ [u], nextId := db.nextId + 1 })

-- ===========================================================================
-- Solution schema validation (app/schemas/solution.py)
-- ===========================================================================

/-- Python `str.lower` over the character list (kernel-reducible). -/
def pyLower (s : String) : String := ⟨s.data.map Char.toLower⟩

/-- Python `str.strip` over the character list (kernel-reducible). -/
def pyStrip (s : String) : String :=
  ⟨((s.data.dropWhile Char.isWhitespace).reverse.dropWhile Char.isWhitespace).reverse⟩

/-- Raw body of a create request, before pydantic validation. -/
structure SolutionCreateInput where
  title : String
  description : String
  code : String
  language : String
  tags : List String
deriving Repr, DecidableEq

/-- The `tags` field validator of `SolutionBase`: drop entries whose
strip is empty, strip-and-lowercase the rest
(`[tag.strip().lower() for tag in v if tag.strip()]`). -/
def cleanTags (v : List String) : List String :=
  (v.filter (fun tag => pyStrip tag ≠ "")).map (fun tag => pyLower (pyStrip tag))

/-- `SolutionCreate`/`SolutionBase` validation: the pydantic `Field`
length constraints on title (5-200), description (20-2000), code
(10-5000), language (1-50) and tags (at least one entry), then the
field validators normalizing tags and language.  Errors carry the
offending field's name. -/
def validateSolutionCreate (r : SolutionCreateInput) :
    Except String SolutionCreateInput :=
  if r.title.length < 5 ∨ 200 < r.title.length then .error "title"
  else if r.description.length < 20 ∨ 2000 < r.description.length then .error "description"
  else if r.code.length < 10 ∨ 5000 < r.code.length then .error "code"
  else if r.language.length < 1 ∨ 50 < r.language.length then .error "language"
  else if r.tags.length < 1 then .error "tags"
  else if (cleanTags r.tags).isEmpty then .error "tags"
  else .ok { r with tags := cleanTags r.tags, language := pyLower (pyStrip r.language) }

/-- Body of an update request after pydantic validation
(`SolutionUpdate`, all fields optional; `none` = field not supplied,
matching `model_dump(exclude_unset=True)`). -/
structure SolutionUpdateInput where
  title : Option String
  description : Option String
  code : Option String
  language : Option String
  tags : Option (List String)
deriving Repr, DecidableEq

/-- The `setattr` loop of `update_solution`: apply exactly the supplied
fields to the row. -/
def applyUpdate (s : SolutionRow) (u : SolutionUpdateInput) : SolutionRow :=
  { s with
    title := u.title.getD s.title,
    description := u.description.getD s.description,
    code := u.code.getD s.code,
    language := u.language.getD s.language,
    tags := u.tags.getD s.tags }

/-- `content_changed` flag of `update_solution`: true when any of
title, description, code is among the supplied fields. -/
def contentChanged (u : SolutionUpdateInput) : Bool :=
  u.title.isSome || u.description.isSome || u.code.isSome

/-- Modelled from the spec: `embedding_service.create_solution_text`
(app/models/embedding.py is absent from the source tree); the spec
says the embedding is computed from the concatenation of
title+description+code. -/
def create_solution_text (title description code : String) : String :=
  title ++ "\n" ++ description ++ "\n" ++ code

/-- Python truthiness of the value returned by the external embedding
service: `None` and the empty vector are falsy. -/
def embTruthy (e : Option Embedding) : Bool :=
  match e with
  | none => false
  | some v => !v.isEmpty

-- ===========================================================================
-- Solutions router (app/routers/solutions.py)
-- ===========================================================================

/-- The ownership-and-liveness lookup shared by `get_solution` and
`update_solution`: `select(Solution).where(Solution.id == solution_id,
Solution.user_id == user.id, ~Solution.is_archived)`. -/
def findOwnedActive (uid sid : Nat) (db : DB) : Option SolutionRow :=
  db.solutions.find? (fun s => s.id == sid && s.user_id == uid && !s.is_archived)

/-- The response dict built by `get_solution` and the list endpoint
(`SolutionResponse` plus bookmark status). -/
structure SolutionResponseOut where
  id : Nat
  title : String
  description : String
  code : String
  language : String
  tags : List String
  is_archived : Bool
  created_at : Nat
  is_bookmarked : Bool
deriving Repr, DecidableEq

/-- Build a `SolutionResponse` from a row and its bookmark status. -/
def toResponse (s : SolutionRow) (bk : Bool) : SolutionResponseOut :=
  { id := s.id, title := s.title, description := s.description, code := s.code,
    language := s.language, tags := s.tags, is_archived := s.is_archived,
    created_at := s.created_at, is_bookmarked := bk }

/-- Whether the user has bookmarked the solution (the routers' repeated
`select(Bookmark).where(user_id == .., solution_id == ..)` check). -/
def isBookmarked (uid sid : Nat) (db : DB) : Bool :=
  db.bookmarks.any (fun b => b.user_id == uid && b.solution_id == sid)

/-- `create_solution` (lines 35-70): validate, generate the embedding
from title+description+code via the external service, insert a row
stamped with the caller's user id.  Validation failure surfaces before
any persistence. -/
def create_solution (uid : Nat) (r : SolutionCreateInput)
    (embedFn : String → Option Embedding) (db : DB) (now : Nat) :
    Except String (SolutionRow × DB) :=
  match validateSolutionCreate r with
  | .error e => .error e
  | .ok v =>
    let emb := embedFn (create_solution_text v.title v.description v.code)
    let s : SolutionRow :=
      { id := db.nextId, user_id := uid, title := v.title,
        description := v.description, code := v.code, language := v.language,
        tags := v.tags, embedding := emb, is_archived := false, created_at := now }
    .ok (s, { db with solutions := db.solutions ++ [s], nextId := db.nextId + 1 })

/-- Truthiness of an optional query-string filter (`if language:` in
Python: absent and empty are both falsy). -/
def strTruthy (o : Option String) : Bool :=
  match o with
  | some s => s ≠ ""
  | none => false

/-- Descending insertion by `created_at` (the `ORDER BY created_at
DESC` of the list endpoint). -/
def insertByCreatedDesc (s : SolutionRow) : List SolutionRow → List SolutionRow
  | [] => [s]
  | t :: ts =>
    if t.created_at ≤ s.created_at then s :: t :: ts
    else t :: insertByCreatedDesc s ts

/-- Sort rows newest-first. -/
def sortByCreatedDesc (l : List SolutionRow) : List SolutionRow :=
  l.foldr insertByCreatedDesc []

/-- The rows produced by the query of `get_solutions` (lines 112-142):
owner filter, optional archived/language/tag filters, newest-first
order, offset/limit pagination. -/
def listSolutionRows (uid : Nat) (page pageSize : Nat)
    (language tag : Option String) (includeArchived : Bool) (db : DB) :
    List SolutionRow :=
  let base := db.solutions.filter (fun s => s.user_id == uid)
  let f1 := if includeArchived then base else base.filter (fun s => !s.is_archived)
  let f2 := if strTruthy language then
      f1.filter (fun s => s.language == pyLower (language.getD ""))
    else f1
  let f3 := if strTruthy tag then
      f2.filter (fun s => s.tags.contains (pyLower (tag.getD "")))
    else f2
  ((sortByCreatedDesc f3).drop ((page - 1) * pageSize)).take pageSize

/-- Paginated response envelope of the list endpoint. -/
structure SolutionListOut where
  solutions : List SolutionResponseOut
  total : Nat
  page : Nat
  page_size : Nat
  total_pages : Nat
deriving Repr, DecidableEq

/-- `get_solutions` (lines 93-190): page of the caller's rows with
per-row bookmark status, total count over the same filters, and the
computed total-page count. -/
def get_solutions (uid : Nat) (page pageSize : Nat)
    (language tag : Option String) (includeArchived : Bool) (db : DB) :
    SolutionListOut :=
  let rows := listSolutionRows uid page pageSize language tag includeArchived db
  let base := db.solutions.filter (fun s => s.user_id == uid)
  let f1 := if includeArchived then base else base.filter (fun s => !s.is_archived)
  let f2 := if strTruthy language then
      f1.filter (fun s => s.language == pyLower (language.getD ""))
    else f1
  let f3 := if strTruthy tag then
      f2.filter (fun s => s.tags.contains (pyLower (tag.getD "")))
    else f2
  let total := f3.length
  { solutions := rows.map (fun s => toResponse s (isBookmarked uid s.id db)),
    total := total, page := page, page_size := pageSize,
    total_pages := if 0 < total then (total + pageSize - 1) / pageSize else 1 }

/-- `get_solution` (lines 206-254): lookup filtered by id, owner and
non-archived; uniform 404 otherwise; bookmark status attached. -/
def get_solution (uid sid : Nat) (db : DB) :
    Except HttpError SolutionResponseOut :=
  match findOwnedActive uid sid db with
  | none => .error solutionNotFound
  | some s => .ok (toResponse s (isBookmarked uid sid db))

/-- `update_solution` (lines 261-325): owner-scoped lookup (uniform 404
on miss), apply exactly the supplied fields, regenerate the embedding
from the new title+description+code when any of those three was
supplied — keeping the old embedding when the service returns a falsy
value — then commit. -/
def update_solution (uid sid : Nat) (u : SolutionUpdateInput)
    (embedFn : String → Option Embedding) (db : DB) :
    Except HttpError (SolutionRow × DB) :=
  match findOwnedActive uid sid db with
  | none => .error solutionNotFound
  | some s =>
    let s1 := applyUpdate s u
    let s2 := if contentChanged u then
        let newEmb := embedFn (create_solution_text s1.title s1.description s1.code)
        if embTruthy newEmb then { s1 with embedding := newEmb } else s1
      else s1
    .ok (s2, { db with solutions := db.solutions.map (fun t => if t.id == s.id then s2 else t) })

/-- `delete_solution` (lines 332-383).  Permanent path: owner-scoped
lookup (archived included) and physical row removal.  Soft path:
`UPDATE .. SET is_archived = true WHERE id = .. AND user_id = .. AND
NOT is_archived`, with a 404 when no row matched. -/
def delete_solution (uid sid : Nat) (permanent : Bool) (db : DB) :
    Except HttpError DB :=
  if permanent then
    match db.solutions.find? (fun s => s.id == sid && s.user_id == uid) with
    | none => .error solutionNotFound
    | some s =>
      .ok { db with solutions := db.solutions.filter (fun t => !(t.id == s.id)) }
  else
    let matched := db.solutions.filter
      (fun s => s.id == sid && s.user_id == uid && !s.is_archived)
    if matched.length == 0 then .error solutionNotFound
    else
      let newSolutions := db.solutions.map (fun s =>
        if s.id == sid && s.user_id == uid && !s.is_archived then
          { s with is_archived := true }
        else s)
      .ok { db with solutions := newSolutions }

-- ===========================================================================
-- Bookmarks router (app/routers/bookmarks.py)
-- ===========================================================================

/-- Response of the toggle endpoint. -/
structure ToggleOut where
  bookmarked : Bool
  message : String
deriving Repr, DecidableEq

/-- `toggle_bookmark` (lines 52-114): the solution-existence check is
`select(Solution).where(Solution.id == solution_id)` — NOT filtered by
the caller's user id; then insert the caller's bookmark if absent,
delete it if present. -/
def toggle_bookmark (uid sid : Nat) (db : DB) (now : Nat) :
    Except HttpError (ToggleOut × DB) :=
  match db.solutions.find? (fun s => s.id == sid) with
  | none => .error solutionNotFound
  | some _ =>
    match db.bookmarks.find? (fun b => b.user_id == uid && b.solution_id == sid) with
    | some b =>
      .ok ({ bookmarked := false, message := "Bookmark removed" },
        { db with bookmarks := db.bookmarks.filter (fun c => !(c.id == b.id)) })
    | none =>
      let nb : BookmarkRow :=
        { id := db.nextId, user_id := uid, solution_id := sid, created_at := now }
      .ok ({ bookmarked := true, message := "Bookmark added" },
        { db with bookmarks := db.bookmarks ++ [nb], nextId := db.nextId + 1 })

/-- Descending insertion by `created_at` for bookmarks. -/
def insertBkByCreatedDesc (b : BookmarkRow) : List BookmarkRow → List BookmarkRow
  | [] => [b]
  | c :: cs =>
    if c.created_at ≤ b.created_at then b :: c :: cs
    else c :: insertBkByCreatedDesc b cs

/-- `get_bookmarks` (lines 121-144): the caller's bookmarks,
newest-first. -/
def get_bookmarks (uid : Nat) (db : DB) : List BookmarkRow :=
  (db.bookmarks.filter (fun b => b.user_id == uid)).foldr insertBkByCreatedDesc []

/-- `check_bookmark` (lines 151-179): existence of the caller's
bookmark for the solution. -/
def check_bookmark (uid sid : Nat) (db : DB) : Bool :=
  isBookmarked uid sid db

/-- `delete_bookmark` (lines 186-219): `DELETE FROM bookmarks WHERE
user_id = .. AND solution_id = ..`; 404 when nothing was deleted. -/
def delete_bookmark (uid sid : Nat) (db : DB) : Except HttpError DB :=
  let removed := db.bookmarks.filter
    (fun b => b.user_id == uid && b.solution_id == sid)
  let kept := db.bookmarks.filter
    (fun b => !(b.user_id == uid && b.solution_id == sid))
  if removed.length == 0 then .error ⟨404, "Bookmark not found"⟩
  else .ok { db with bookmarks := kept }

-- ===========================================================================
-- Semantic search rows (app/routers/search.py lines 68-99)
-- ===========================================================================

/-- Ascending insertion by distance (the `ORDER BY embedding <=> query`
of the pgvector query; the distance function is the external engine's
operator, abstracted as a parameter). -/
def insertByDistAsc (dist : SolutionRow → Int) (s : SolutionRow) :
    List SolutionRow → List SolutionRow
  | [] => [s]
  | t :: ts =>
    if dist s ≤ dist t then s :: t :: ts
    else t :: insertByDistAsc dist s ts

/-- The rows returned by the raw similarity SQL of `semantic_search`:
non-archived, owned by the caller, embedding present, similarity at
least the threshold, ordered by ascending distance, limited.
`sim`/`dist` abstract the engine's `1 - (embedding <=> query)` and
`embedding <=> query`. -/
def semanticSearchRows (uid : Nat) (sim : SolutionRow → Int)
    (dist : SolutionRow → Int) (minSimilarity : Int) (lim : Nat) (db : DB) :
    List SolutionRow :=
  let matched := db.solutions.filter (fun s =>
    !s.is_archived && s.user_id == uid && s.embedding.isSome &&
      minSimilarity ≤ sim s)
  ((matched.foldr (insertByDistAsc dist) []).take lim)

-- ===========================================================================
-- C2: non-leaking NotFound
-- ===========================================================================

/-- The owner-scoped active lookup misses whenever no solution with the
requested id belongs to the caller. -/
lemma findOwnedActive_eq_none (uid sid : Nat) (db : DB)
    (h : ∀ s ∈ db.solutions, s.id = sid → s.user_id ≠ uid) :
    findOwnedActive uid sid db = none := by
  rw [findOwnedActive, List.find?_eq_none]
  intro s hs hp
  simp only [Bool.and_eq_true, beq_iff_eq] at hp
  exact h s hs hp.1.1 hp.1.2

/-- The permanent-delete lookup misses under the same condition. -/
lemma findOwnedAny_eq_none (uid sid : Nat) (db : DB)
    (h : ∀ s ∈ db.solutions, s.id = sid → s.user_id ≠ uid) :
    db.solutions.find? (fun s => s.id == sid && s.user_id == uid) = none := by
  rw [List.find?_eq_none]
  intro s hs hp
  simp only [Bool.and_eq_true, beq_iff_eq] at hp
  exact h s hs hp.1 hp.2

/-- The soft-delete UPDATE matches no row under the same condition. -/
lemma softDeleteMatched_eq_nil (uid sid : Nat) (db : DB)
    (h : ∀ s ∈ db.solutions, s.id = sid → s.user_id ≠ uid) :
    db.solutions.filter (fun s => s.id == sid && s.user_id == uid && !s.is_archived) = [] := by
  rw [List.filter_eq_nil_iff]
  intro s hs hp
  simp only [Bool.and_eq_true, beq_iff_eq] at hp
  exact h s hs hp.1.1 hp.1.2

/-- C2: Non-leaking NotFound.  When the requested solution id exists but
is owned by a different user (`db1`), every get/update/delete-by-id
operation returns exactly the response it returns when the id does not
exist at all (`db2`): the same 404 with the same "Solution not found"
detail. -/
theorem solutions_nonleaking_notfound (uid sid : Nat) (db1 db2 : DB)
    (u : SolutionUpdateInput) (embedFn : String → Option Embedding)
    (_hforeign : ∃ s ∈ db1.solutions, s.id = sid ∧ s.user_id ≠ uid)
    (hnotmine : ∀ s ∈ db1.solutions, s.id = sid → s.user_id ≠ uid)
    (habsent : ∀ s ∈ db2.solutions, s.id ≠ sid) :
    (get_solution uid sid db1 = .error solutionNotFound ∧
      get_solution uid sid db1 = get_solution uid sid db2) ∧
    (update_solution uid sid u embedFn db1 = .error solutionNotFound ∧
      update_solution uid sid u embedFn db1 = update_solution uid sid u embedFn db2) ∧
    (delete_solution uid sid true db1 = .error solutionNotFound ∧
      delete_solution uid sid true db1 = delete_solution uid sid true db2) ∧
    (delete_solution uid sid false db1 = .error solutionNotFound ∧
      delete_solution uid sid false db1 = delete_solution uid sid false db2) := by
  have habsent' : ∀ s ∈ db2.solutions, s.id = sid → s.user_id ≠ uid := by
    intro s hs hid
    exact absurd hid (habsent s hs)
  have h1 := findOwnedActive_eq_none uid sid db1 hnotmine
  have h2 := findOwnedActive_eq_none uid sid db2 habsent'
  have h3 := findOwnedAny_eq_none uid sid db1 hnotmine
  have h4 := findOwnedAny_eq_none uid sid db2 habsent'
  have h5 := softDeleteMatched_eq_nil uid sid db1 hnotmine
  have h6 := softDeleteMatched_eq_nil uid sid db2 habsent'
  refine ⟨⟨?_, ?_⟩, ⟨?_, ?_⟩, ⟨?_, ?_⟩, ⟨?_, ?_⟩⟩ <;>
    simp [get_solution, update_solution, delete_solution, h1, h2, h3, h4, h5, h6]

/-- A store holding one solution (id 7) owned by user 2. -/
def dbForeign : DB :=
  { users := [], bookmarks := [], nextId := 50,
    solutions := [{ id := 7, user_id := 2, title := "t", description := "d",
                    code := "c", language := "python", tags := ["x"],
                    embedding := some [1], is_archived := false, created_at := 3 }] }

/-- A store with no solution at all. -/
def dbEmptySolutions : DB := { users := [], solutions := [], bookmarks := [], nextId := 50 }

/-- An update request supplying no field. -/
def updNothing : SolutionUpdateInput :=
  { title := none, description := none, code := none, language := none, tags := none }

/-- Witness for C2: user 1 requesting solution 7 — which exists but is
owned by user 2 — receives the same 404 as on an empty store, for all
four by-id operations. -/
theorem solutions_nonleaking_notfound_witness :
    (get_solution 1 7 dbForeign = .error solutionNotFound ∧
      get_solution 1 7 dbForeign = get_solution 1 7 dbEmptySolutions) ∧
    (update_solution 1 7 updNothing (fun _ => none) dbForeign = .error solutionNotFound ∧
      update_solution 1 7 updNothing (fun _ => none) dbForeign =
        update_solution 1 7 updNothing (fun _ => none) dbEmptySolutions) ∧
    (delete_solution 1 7 true dbForeign = .error solutionNotFound ∧
      delete_solution 1 7 true dbForeign = delete_solution 1 7 true dbEmptySolutions) ∧
    (delete_solution 1 7 false dbForeign = .error solutionNotFound ∧
      delete_solution 1 7 false dbForeign = delete_solution 1 7 false dbEmptySolutions) :=
  solutions_nonleaking_notfound 1 7 dbForeign dbEmptySolutions updNothing (fun _ => none)
    (by decide) (by decide) (by decide)

-- ===========================================================================
-- C9: create-time validation and tag normalization
-- ===========================================================================

/-- Shape of a successful validation: the accepted value is the input
with tags cleaned and language normalized. -/
lemma validateSolutionCreate_ok_shape (r v : SolutionCreateInput)
    (h : validateSolutionCreate r = .ok v) :
    v = { r with tags := cleanTags r.tags, language := pyLower (pyStrip r.language) } := by
  unfold validateSolutionCreate at h
  split_ifs at h
  injection h with hv
  exact hv.symm

/-- A successful validation bounds every constrained field and leaves a
non-empty cleaned tag list. -/
lemma validateSolutionCreate_ok_conditions (r v : SolutionCreateInput)
    (h : validateSolutionCreate r = .ok v) :
    (5 ≤ r.title.length ∧ r.title.length ≤ 200) ∧
    (20 ≤ r.description.length ∧ r.description.length ≤ 2000) ∧
    (10 ≤ r.code.length ∧ r.code.length ≤ 5000) ∧
    cleanTags r.tags ≠ [] := by
  unfold validateSolutionCreate at h
  split_ifs at h with h1 h2 h3 h4 h5 h6
  push_neg at h1 h2 h3
  refine ⟨h1, h2, h3, ?_⟩
  intro hnil
  exact h6 (by simp [hnil])

/-- C9: Create-time validation and tag normalization.  A title outside
5-200 characters is rejected (with the field named), a description
outside 20-2000 or a code outside 10-5000 or a tag list with no
non-empty entry is rejected, all before any persistence (an `error`
result carries no store); on acceptance the stored row has the tags
trimmed, lowercased and purged of empty entries, the language
lowercased, the caller's user id stamped, and is appended to the
store; and the cleaning of `["  ", "Python ", ""]` is `["python"]`. -/
theorem create_solution_validation_and_normalization
    (uid : Nat) (r : SolutionCreateInput) (embedFn : String → Option Embedding)
    (db : DB) (now : Nat) :
    ((r.title.length < 5 ∨ 200 < r.title.length) →
      create_solution uid r embedFn db now = .error "title") ∧
    ((r.description.length < 20 ∨ 2000 < r.description.length) →
      ∃ f, create_solution uid r embedFn db now = .error f) ∧
    ((r.code.length < 10 ∨ 5000 < r.code.length) →
      ∃ f, create_solution uid r embedFn db now = .error f) ∧
    (cleanTags r.tags = [] →
      ∃ f, create_solution uid r embedFn db now = .error f) ∧
    (∀ s db', create_solution uid r embedFn db now = .ok (s, db') →
      s.tags = cleanTags r.tags ∧ s.language = pyLower (pyStrip r.language) ∧
      s.user_id = uid ∧ s.title = r.title ∧ db'.solutions = db.solutions ++ [s]) ∧
    cleanTags ["  ", "Python ", ""] = ["python"] := by
  refine ⟨?_, ?_, ?_, ?_, ?_, by decide⟩
  · intro h
    have hv : validateSolutionCreate r = .error "title" := by
      unfold validateSolutionCreate
      rw [if_pos h]
    simp [create_solution, hv]
  · intro h
    cases hv : validateSolutionCreate r with
    | error e => exact ⟨e, by simp [create_solution, hv]⟩
    | ok v =>
      have hc := (validateSolutionCreate_ok_conditions r v hv).2.1
      rcases h with h | h <;> omega
  · intro h
    cases hv : validateSolutionCreate r with
    | error e => exact ⟨e, by simp [create_solution, hv]⟩
    | ok v =>
      have hc := (validateSolutionCreate_ok_conditions r v hv).2.2.1
      rcases h with h | h <;> omega
  · intro h
    cases hv : validateSolutionCreate r with
    | error e => exact ⟨e, by simp [create_solution, hv]⟩
    | ok v =>
      exact absurd h (validateSolutionCreate_ok_conditions r v hv).2.2.2
  · intro s db' hok
    cases hv : validateSolutionCreate r with
    | error e => simp [create_solution, hv] at hok
    | ok v =>
      have hshape := validateSolutionCreate_ok_shape r v hv
      subst hshape
      simp only [create_solution, hv] at hok
      rw [Except.ok.injEq, Prod.mk.injEq] at hok
      obtain ⟨hs, hdb⟩ := hok
      subst hs
      subst hdb
      exact ⟨rfl, rfl, rfl, rfl, by simp⟩

/-- A create request with a 4-character title. -/
def shortTitleInput : SolutionCreateInput :=
  { title := "abcd", description := "a description long enough to pass",
    code := "print(123)", language := "Python", tags := ["x"] }

/-- A valid create request carrying the spec's tag example. -/
def goodCreateInput : SolutionCreateInput :=
  { title := "Sort a list", description := "How to sort a list of strings fast",
    code := "sorted(xs, key=len)", language := "Python",
    tags := ["  ", "Python ", ""] }

/-- The row `goodCreateInput` produces on the empty store. -/
def goodCreateRow : SolutionRow :=
  { id := 50, user_id := 1, title := "Sort a list",
    description := "How to sort a list of strings fast",
    code := "sorted(xs, key=len)", language := "python", tags := ["python"],
    embedding := none, is_archived := false, created_at := 0 }

/-- The store after the successful create. -/
def goodCreateDB : DB :=
  { users := [], solutions := [goodCreateRow], bookmarks := [], nextId := 51 }

/-- Witness for C9: the 4-character title is rejected naming `title`,
and the accepted request stores tags `["python"]` (from
`["  ", "Python ", ""]`), lowercased language, the caller's id, and
appends the row. -/
theorem create_solution_validation_witness :
    create_solution 1 shortTitleInput (fun _ => none) dbEmptySolutions 0 = .error "title" ∧
    (goodCreateRow.tags = cleanTags goodCreateInput.tags ∧
      goodCreateRow.language = pyLower (pyStrip goodCreateInput.language) ∧
      goodCreateRow.user_id = 1 ∧ goodCreateRow.title = goodCreateInput.title ∧
      goodCreateDB.solutions = dbEmptySolutions.solutions ++ [goodCreateRow]) :=
  ⟨(create_solution_validation_and_normalization 1 shortTitleInput
      (fun _ => none) dbEmptySolutions 0).1 (by decide),
   (create_solution_validation_and_normalization 1 goodCreateInput
      (fun _ => none) dbEmptySolutions 0).2.2.2.2.1 goodCreateRow goodCreateDB (by decide)⟩

-- ===========================================================================
-- C7 and C10: embedding regeneration frame conditions on update
-- ===========================================================================

/-- C7: Embedding regeneration frame condition.  For an owned,
non-archived solution: an update supplying none of title, description
or code commits the row with the stored embedding exactly unchanged;
an update supplying any of the three regenerates the embedding from
the new title+description+code before commit (whenever the service
returns a usable vector, that vector is stored). -/
theorem update_solution_embedding_frame (uid sid : Nat) (db : DB)
    (s : SolutionRow) (u : SolutionUpdateInput)
    (embedFn : String → Option Embedding)
    (hfind : findOwnedActive uid sid db = some s) :
    (contentChanged u = false →
      ∃ db', update_solution uid sid u embedFn db = .ok (applyUpdate s u, db') ∧
        (applyUpdate s u).embedding = s.embedding) ∧
    (contentChanged u = true →
      ∀ e, embedFn (create_solution_text (u.title.getD s.title)
          (u.description.getD s.description) (u.code.getD s.code)) = some e →
        e ≠ [] →
        ∃ db', update_solution uid sid u embedFn db =
          .ok ({ applyUpdate s u with embedding := some e }, db')) := by
  constructor
  · intro hcc
    have h : update_solution uid sid u embedFn db = .ok (applyUpdate s u,
        { db with solutions := db.solutions.map (fun t => if t.id == s.id then applyUpdate s u else t) }) := by
      simp [update_solution, hfind, hcc]
    exact ⟨_, h, rfl⟩
  · intro hcc e hemb hne
    have htr : embTruthy (some e) = true := by
      simp [embTruthy, List.isEmpty_iff, hne]
    have harg : create_solution_text (applyUpdate s u).title
        (applyUpdate s u).description (applyUpdate s u).code =
        create_solution_text (u.title.getD s.title)
          (u.description.getD s.description) (u.code.getD s.code) := rfl
    have h : update_solution uid sid u embedFn db =
        .ok ({ applyUpdate s u with embedding := some e },
          { db with solutions := db.solutions.map (fun t => if t.id == s.id then { applyUpdate s u with embedding := some e } else t) }) := by
      simp only [update_solution, hfind]
      rw [hcc]
      simp only [harg, hemb, htr, if_true]
    exact ⟨_, h⟩

/-- C10: When an update does change title, description or code but the
embedding service returns no usable vector (`None` or the empty
vector, both falsy in the handler's `if new_embedding:`), the row is
still committed and its stored embedding is left exactly as it was. -/
theorem update_solution_embedding_kept_when_unavailable (uid sid : Nat)
    (db : DB) (s : SolutionRow) (u : SolutionUpdateInput)
    (embedFn : String → Option Embedding)
    (hfind : findOwnedActive uid sid db = some s)
    (hcc : contentChanged u = true)
    (hfalsy : embTruthy (embedFn (create_solution_text (u.title.getD s.title)
      (u.description.getD s.description) (u.code.getD s.code))) = false) :
    ∃ db', update_solution uid sid u embedFn db = .ok (applyUpdate s u, db') ∧
      (applyUpdate s u).embedding = s.embedding := by
  have h : update_solution uid sid u embedFn db = .ok (applyUpdate s u,
      { db with solutions := db.solutions.map (fun t => if t.id == s.id then applyUpdate s u else t) }) := by
    have harg : create_solution_text (applyUpdate s u).title
        (applyUpdate s u).description (applyUpdate s u).code =
        create_solution_text (u.title.getD s.title)
          (u.description.getD s.description) (u.code.getD s.code) := rfl
    simp only [update_solution, hfind]
    rw [hcc]
    simp only [harg, hfalsy]
    simp
  exact ⟨_, h, rfl⟩

/-- A store holding one solution (id 7) owned by user 1, with a stored
embedding. -/
def dbOwned : DB :=
  { users := [], bookmarks := [], nextId := 60,
    solutions := [{ id := 7, user_id := 1, title := "Old title",
                    description := "Old description of the snippet",
                    code := "print(1234567)", language := "python",
                    tags := ["x"], embedding := some [3, 4],
                    is_archived := false, created_at := 3 }] }

/-- The row of `dbOwned`. -/
def ownedRow : SolutionRow :=
  { id := 7, user_id := 1, title := "Old title",
    description := "Old description of the snippet", code := "print(1234567)",
    language := "python", tags := ["x"], embedding := some [3, 4],
    is_archived := false, created_at := 3 }

/-- An update supplying only tags. -/
def updTagsOnly : SolutionUpdateInput :=
  { title := none, description := none, code := none, language := none,
    tags := some ["newtag"] }

/-- An update supplying only a new title. -/
def updNewTitle : SolutionUpdateInput :=
  { title := some "A brand new title", description := none, code := none,
    language := none, tags := none }

/-- Witness for C7: updating only tags leaves the embedding `[3, 4]`
unchanged; updating the title with the service returning `[9]` stores
`[9]`. -/
theorem update_solution_embedding_frame_witness :
    (∃ db', update_solution 1 7 updTagsOnly (fun _ => some [9]) dbOwned =
        .ok (applyUpdate ownedRow updTagsOnly, db') ∧
      (applyUpdate ownedRow updTagsOnly).embedding = ownedRow.embedding) ∧
    (∃ db', update_solution 1 7 updNewTitle (fun _ => some [9]) dbOwned =
        .ok ({ applyUpdate ownedRow updNewTitle with embedding := some [9] }, db')) :=
  ⟨(update_solution_embedding_frame 1 7 dbOwned ownedRow updTagsOnly
      (fun _ => some [9]) (by decide)).1 (by decide),
   (update_solution_embedding_frame 1 7 dbOwned ownedRow updNewTitle
      (fun _ => some [9]) (by decide)).2 (by decide) [9] rfl (by decide)⟩

/-- Witness for C10: a title update with the embedding service
returning `None` commits the row and keeps the stored `[3, 4]`. -/
theorem update_solution_embedding_kept_witness :
    ∃ db', update_solution 1 7 updNewTitle (fun _ => none) dbOwned =
        .ok (applyUpdate ownedRow updNewTitle, db') ∧
      (applyUpdate ownedRow updNewTitle).embedding = ownedRow.embedding :=
  update_solution_embedding_kept_when_unavailable 1 7 dbOwned ownedRow
    updNewTitle (fun _ => none) (by decide) (by decide) (by decide)

-- ===========================================================================
-- C8: bookmark toggle is an involution
-- ===========================================================================

/-- The bookmark row the toggle endpoint inserts. -/
def newBookmark (i uid sid now : Nat) : BookmarkRow :=
  { id := i, user_id := uid, solution_id := sid, created_at := now }

/-- Number of bookmark rows for a `(user, solution)` pair. -/
def pairCount (uid sid : Nat) (db : DB) : Nat :=
  (db.bookmarks.filter (fun b => b.user_id == uid && b.solution_id == sid)).length

/-- A list whose filtration is a singleton finds that element. -/
lemma find?_of_filter_singleton {α} (p : α → Bool) (l : List α) (b : α)
    (h : l.filter p = [b]) : l.find? p = some b := by
  induction l with
  | nil => simp at h
  | cons c cs ih =>
    by_cases hc : p c
    · rw [List.filter_cons_of_pos hc] at h
      rw [List.find?_cons_of_pos cs hc]
      exact congrArg some (List.cons.injEq .. ▸ h).1
    · rw [List.filter_cons_of_neg hc] at h
      rw [List.find?_cons_of_neg cs hc]
      exact ih h

/-- C8: Bookmark toggle is an involution keeping at most one row per
pair.  For an existing solution: when the caller has no bookmark for
it, toggling inserts one and answers `bookmarked = true`, and toggling
again removes exactly that row, restoring the bookmark table to its
original value; when the caller has exactly one bookmark for it,
toggling removes it and answers `bookmarked = false`, and toggling
again re-adds one, leaving exactly one row for the pair and the same
bookmarked-pairs relation as at the start. -/
theorem toggle_bookmark_involution (uid sid : Nat) (db : DB) (now1 now2 : Nat)
    (hsol : ∃ s ∈ db.solutions, s.id = sid)
    (hfresh : ∀ b ∈ db.bookmarks, b.id < db.nextId)
    (hids : (db.bookmarks.map BookmarkRow.id).Nodup) :
    (pairCount uid sid db = 0 →
      ∃ db', toggle_bookmark uid sid db now1 =
          .ok ({ bookmarked := true, message := "Bookmark added" }, db') ∧
        pairCount uid sid db' = 1 ∧
        ∃ db'', toggle_bookmark uid sid db' now2 =
            .ok ({ bookmarked := false, message := "Bookmark removed" }, db'') ∧
          db''.bookmarks = db.bookmarks) ∧
    (pairCount uid sid db = 1 →
      ∃ db', toggle_bookmark uid sid db now1 =
          .ok ({ bookmarked := false, message := "Bookmark removed" }, db') ∧
        pairCount uid sid db' = 0 ∧
        ∃ db'', toggle_bookmark uid sid db' now2 =
            .ok ({ bookmarked := true, message := "Bookmark added" }, db'') ∧
          pairCount uid sid db'' = 1 ∧
          ∀ u s, isBookmarked u s db'' = isBookmarked u s db) := by
  obtain ⟨w, hw, hwid⟩ := hsol
  have hfs : ∃ y, db.solutions.find? (fun s => s.id == sid) = some y := by
    cases hy : db.solutions.find? (fun s => s.id == sid) with
    | none =>
      rw [List.find?_eq_none] at hy
      exact absurd (by simp [hwid]) (hy w hw)
    | some y => exact ⟨y, rfl⟩
  obtain ⟨y, hy⟩ := hfs
  constructor
  · -- absent case
    intro h0
    have hnil : db.bookmarks.filter
        (fun b => b.user_id == uid && b.solution_id == sid) = [] :=
      List.length_eq_zero.mp h0
    have hnone : db.bookmarks.find?
        (fun b => b.user_id == uid && b.solution_id == sid) = none := by
      rw [List.find?_eq_none]
      exact List.filter_eq_nil_iff.mp hnil
    have h1 : toggle_bookmark uid sid db now1 =
        .ok ({ bookmarked := true, message := "Bookmark added" },
          { db with bookmarks := db.bookmarks ++ [newBookmark db.nextId uid sid now1], nextId := db.nextId + 1 }) := by
      simp [toggle_bookmark, hy, hnone, newBookmark]
    refine ⟨_, h1, ?_, ?_⟩
    · simp [pairCount, List.filter_append, hnil, newBookmark]
    · -- second toggle removes exactly the new row
      have hnb : (db.bookmarks ++ [newBookmark db.nextId uid sid now1]).find?
            (fun b => b.user_id == uid && b.solution_id == sid) =
          some (newBookmark db.nextId uid sid now1) := by
        rw [List.find?_append, hnone]
        simp [newBookmark]
      have h2 : toggle_bookmark uid sid
          { db with bookmarks := db.bookmarks ++ [newBookmark db.nextId uid sid now1], nextId := db.nextId + 1 } now2 =
          .ok ({ bookmarked := false, message := "Bookmark removed" },
            { db with bookmarks := (db.bookmarks ++ [newBookmark db.nextId uid sid now1]).filter (fun c => !(c.id == (newBookmark db.nextId uid sid now1).id)), nextId := db.nextId + 1 }) := by
        simp [toggle_bookmark, hy, hnb]
      refine ⟨_, h2, ?_⟩
      show (db.bookmarks ++ [newBookmark db.nextId uid sid now1]).filter (fun c => !(c.id == (newBookmark db.nextId uid sid now1).id)) = db.bookmarks
      have hkeep : db.bookmarks.filter (fun c => !(c.id == (newBookmark db.nextId uid sid now1).id)) = db.bookmarks := by
        rw [List.filter_eq_self]
        intro b hb
        have := hfresh b hb
        simp only [newBookmark, Bool.not_eq_true', beq_eq_false_iff_ne]
        omega
      rw [List.filter_append, hkeep]
      simp [newBookmark]
  · -- present case
    intro h1
    obtain ⟨b0, hb0⟩ := List.length_eq_one.mp h1
    have hfind : db.bookmarks.find?
        (fun b => b.user_id == uid && b.solution_id == sid) = some b0 :=
      find?_of_filter_singleton _ _ _ hb0
    have hb0mem : b0 ∈ db.bookmarks := by
      have : b0 ∈ db.bookmarks.filter (fun b => b.user_id == uid && b.solution_id == sid) := by
        rw [hb0]; exact List.mem_singleton.mpr rfl
      exact (List.mem_filter.mp this).1
    have hb0p : b0.user_id = uid ∧ b0.solution_id = sid := by
      have : b0 ∈ db.bookmarks.filter (fun b => b.user_id == uid && b.solution_id == sid) := by
        rw [hb0]; exact List.mem_singleton.mpr rfl
      have hp := (List.mem_filter.mp this).2
      simp only [Bool.and_eq_true, beq_iff_eq] at hp
      exact hp
    have hdel : toggle_bookmark uid sid db now1 =
        .ok ({ bookmarked := false, message := "Bookmark removed" },
          { db with bookmarks := db.bookmarks.filter (fun c => !(c.id == b0.id)) }) := by
      simp [toggle_bookmark, hy, hfind]
    have hpair0 : (db.bookmarks.filter (fun c => !(c.id == b0.id))).filter
        (fun b => b.user_id == uid && b.solution_id == sid) = [] := by
      rw [List.filter_eq_nil_iff]
      intro c hc hp
      obtain ⟨hcmem, hcq⟩ := List.mem_filter.mp hc
      have : c ∈ db.bookmarks.filter (fun b => b.user_id == uid && b.solution_id == sid) :=
        List.mem_filter.mpr ⟨hcmem, hp⟩
      rw [hb0] at this
      have hcb : c = b0 := List.mem_singleton.mp this
      subst hcb
      simp at hcq
    refine ⟨_, hdel, by simp [pairCount, hpair0], ?_⟩
    have hnone2 : (db.bookmarks.filter (fun c => !(c.id == b0.id))).find?
        (fun b => b.user_id == uid && b.solution_id == sid) = none := by
      rw [List.find?_eq_none]
      exact List.filter_eq_nil_iff.mp hpair0
    have hadd : toggle_bookmark uid sid
        { db with bookmarks := db.bookmarks.filter (fun c => !(c.id == b0.id)) } now2 =
        .ok ({ bookmarked := true, message := "Bookmark added" },
          { db with bookmarks := db.bookmarks.filter (fun c => !(c.id == b0.id)) ++ [newBookmark db.nextId uid sid now2], nextId := db.nextId + 1 }) := by
      simp [toggle_bookmark, hy, hnone2, newBookmark]
    refine ⟨_, hadd, ?_, ?_⟩
    · simp [pairCount, List.filter_append, hpair0, newBookmark]
    · -- the bookmarked-pairs relation is restored
      intro u s
      rw [Bool.eq_iff_iff]
      simp only [isBookmarked, List.any_eq_true]
      constructor
      · rintro ⟨c, hc, hcp⟩
        rcases List.mem_append.mp hc with hc1 | hc2
        · exact ⟨c, (List.mem_filter.mp hc1).1, hcp⟩
        · have hceq : c = newBookmark db.nextId uid sid now2 := List.mem_singleton.mp hc2
          subst hceq
          simp only [newBookmark, Bool.and_eq_true, beq_iff_eq] at hcp
          refine ⟨b0, hb0mem, ?_⟩
          simp only [Bool.and_eq_true, beq_iff_eq]
          exact ⟨hb0p.1.trans hcp.1, hb0p.2.trans hcp.2⟩
      · rintro ⟨c, hc, hcp⟩
        by_cases hcb : c.id = b0.id
        · have hcb0 : c = b0 :=
            List.inj_on_of_nodup_map hids hc hb0mem hcb
          subst hcb0
          simp only [Bool.and_eq_true, beq_iff_eq] at hcp
          refine ⟨newBookmark db.nextId uid sid now2, ?_, ?_⟩
          · exact List.mem_append.mpr (Or.inr (List.mem_singleton.mpr rfl))
          · simp only [newBookmark, Bool.and_eq_true, beq_iff_eq]
            exact ⟨hb0p.1.symm.trans hcp.1, hb0p.2.symm.trans hcp.2⟩
        · refine ⟨c, ?_, hcp⟩
          refine List.mem_append.mpr (Or.inl ?_)
          refine List.mem_filter.mpr ⟨hc, ?_⟩
          simp only [Bool.not_eq_true', beq_eq_false_iff_ne]
          exact hcb

/-- A store with two users' bookmarks: user 1 has none for solution 7,
user 2 has one. -/
def dbToggle : DB :=
  { users := [], nextId := 80,
    solutions := [{ id := 7, user_id := 2, title := "t", description := "d",
                    code := "c", language := "python", tags := ["x"],
                    embedding := none, is_archived := false, created_at := 3 }],
    bookmarks := [{ id := 9, user_id := 2, solution_id := 7, created_at := 4 }] }

/-- Witness for C8: user 1 (no bookmark for solution 7) toggling twice
inserts then removes a bookmark, returning `true` then `false` and
restoring the bookmark table; user 2 (one bookmark for solution 7)
toggling twice removes then re-adds it, ending with exactly one row
for the pair. -/
theorem toggle_bookmark_involution_witness :
    (∃ db', toggle_bookmark 1 7 dbToggle 5 =
        .ok ({ bookmarked := true, message := "Bookmark added" }, db') ∧
      pairCount 1 7 db' = 1 ∧
      ∃ db'', toggle_bookmark 1 7 db' 6 =
          .ok ({ bookmarked := false, message := "Bookmark removed" }, db'') ∧
        db''.bookmarks = dbToggle.bookmarks) ∧
    (∃ db', toggle_bookmark 2 7 dbToggle 5 =
        .ok ({ bookmarked := false, message := "Bookmark removed" }, db') ∧
      pairCount 2 7 db' = 0 ∧
      ∃ db'', toggle_bookmark 2 7 db' 6 =
          .ok ({ bookmarked := true, message := "Bookmark added" }, db'') ∧
        pairCount 2 7 db'' = 1 ∧
        ∀ u s, isBookmarked u s db'' = isBookmarked u s dbToggle) :=
  ⟨(toggle_bookmark_involution 1 7 dbToggle 5 6 (by decide)
      (by decide) (by decide)).1 (by decide),
   (toggle_bookmark_involution 2 7 dbToggle 5 6 (by decide)
      (by decide) (by decide)).2 (by decide)⟩

-- ===========================================================================
-- C6: provisioning idempotence of get_or_create_user
-- ===========================================================================

/-- After replacing the row identified by `i` with one carrying the
same auth id, the lookup finds the replacement. -/
lemma find?_auth_after_replace (a : String) (l : List UserRow) (i : Nat) (u u' : UserRow)
    (hfind : l.find? (fun v => v.auth_id == a) = some u)
    (hauth : u'.auth_id = u.auth_id)
    (hid : ∀ v ∈ l, v.id = i → v = u)
    (hui : u.id = i) :
    (l.map (fun v => if v.id == i then u' else v)).find?
      (fun v => v.auth_id == a) = some u' := by
  induction l with
  | nil => simp at hfind
  | cons c cs ih =>
    by_cases hc : (c.auth_id == a) = true
    · simp only [List.find?_cons, hc] at hfind
      have hcu : c = u := by injection hfind
      subst hcu
      have hp : (u'.auth_id == a) = true := by
        rw [beq_iff_eq] at hc ⊢
        rw [hauth, hc]
      have hci : (c.id == i) = true := beq_iff_eq.mpr hui
      simp only [List.map_cons, hci, if_true]
      simp [List.find?_cons, hp]
    · rw [Bool.not_eq_true] at hc
      simp only [List.find?_cons, hc] at hfind
      have hup0 := List.find?_some hfind
      have hup : (u.auth_id == a) = true := hup0
      have hcid : (c.id == i) = false := by
        rw [beq_eq_false_iff_ne]
        intro hcontra
        have hcu := hid c (List.mem_cons_self c cs) hcontra
        rw [hcu, hup] at hc
        exact Bool.noConfusion hc
      simp only [List.map_cons, hcid, Bool.false_eq_true, if_false]
      rw [List.find?_cons, hc]
      exact ih hfind (fun v hv => hid v (List.mem_cons_of_mem c hv))

/-- Under a duplicate-free auth column, the rows matching a present
auth id form exactly the singleton of that row. -/
lemma filter_auth_singleton (a : String) (l : List UserRow) (u : UserRow)
    (hnodup : (l.map UserRow.auth_id).Nodup)
    (hu : u ∈ l) (hua : (u.auth_id == a) = true) :
    l.filter (fun v => v.auth_id == a) = [u] := by
  induction l with
  | nil => simp at hu
  | cons c cs ih =>
    rw [List.map_cons, List.nodup_cons] at hnodup
    rcases List.mem_cons.mp hu with hue | hue
    · subst hue
      have hnil : cs.filter (fun v => v.auth_id == a) = [] := by
        rw [List.filter_eq_nil_iff]
        intro v hv hvp
        apply hnodup.1
        rw [List.mem_map]
        refine ⟨v, hv, ?_⟩
        rw [beq_iff_eq] at hvp hua
        rw [hvp, hua]
      simp [List.filter_cons, hua, hnil]
    · have hcp : (c.auth_id == a) = false := by
        rw [beq_eq_false_iff_ne]
        intro hceq
        apply hnodup.1
        rw [List.mem_map]
        refine ⟨u, hue, ?_⟩
        rw [beq_iff_eq] at hua
        rw [hua, hceq]
      simp only [List.filter_cons, hcp, Bool.false_eq_true, if_false]
      exact ih hnodup.2 hue

/-- Replacing the row identified by `i` with one carrying the same
auth id does not change how many rows match any auth id. -/
lemma filter_auth_length_replace (a : String) (l : List UserRow) (i : Nat) (u u' : UserRow)
    (hauth : u'.auth_id = u.auth_id)
    (hid : ∀ v ∈ l, v.id = i → v = u) :
    ((l.map (fun v => if v.id == i then u' else v)).filter
      (fun v => v.auth_id == a)).length =
    (l.filter (fun v => v.auth_id == a)).length := by
  induction l with
  | nil => rfl
  | cons c cs ih =>
    have ihcs := ih (fun v hv => hid v (List.mem_cons_of_mem c hv))
    by_cases hcid : (c.id == i) = true
    · have hcu : c = u := hid c (List.mem_cons_self c cs) (beq_iff_eq.mp hcid)
      subst hcu
      by_cases hcp : c.auth_id = a
      · have hup : u'.auth_id = a := by rw [hauth, hcp]
        simp only [List.map_cons, List.filter_cons]
        simp [beq_iff_eq.mp hcid, hcp, hup]
        simpa using ihcs
      · have hup : ¬ u'.auth_id = a := by rw [hauth]; exact hcp
        simp only [List.map_cons, List.filter_cons]
        simp [beq_iff_eq.mp hcid, hcp, hup]
        simpa using ihcs
    · have hcid2 : ¬ c.id = i := by simpa using hcid
      by_cases hcp : c.auth_id = a
      · simp only [List.map_cons, List.filter_cons]
        simp [hcid2, hcp]
        simpa using ihcs
      · simp only [List.map_cons, List.filter_cons]
        simp [hcid2, hcp]
        simpa using ihcs

/-- The row `get_or_create_user` inserts for a never-seen subject. -/
def seedUser (cu : CurrentUser) (i n : Nat) : UserRow :=
  { id := i, auth_id := cu.id, email := pyOrElse cu.email "",
    full_name := "", is_active := true, is_verified := true, last_login_at := n }

/-- C6: Provisioning idempotence.  Under a store whose auth and
surrogate id columns are duplicate-free and whose rows predate the id
source: two successive `get_or_create_user` calls for the same subject
return the same user id; the final store holds exactly one user row
for that subject; a first call for a never-seen subject inserts the
row seeded from the identity's email (empty string when absent) with
`is_active` and `is_verified` true; and the second call only
refreshes that row's `last_login_at`, leaving users otherwise — and
solutions, bookmarks and the id source entirely — unchanged. -/
theorem get_or_create_user_idempotent (cu : CurrentUser) (db : DB) (n1 n2 : Nat)
    (hauth : (db.users.map UserRow.auth_id).Nodup)
    (huid : (db.users.map UserRow.id).Nodup)
    (hfresh : ∀ u ∈ db.users, u.id < db.nextId) :
    (get_or_create_user cu db n1).1.id =
      (get_or_create_user cu (get_or_create_user cu db n1).2 n2).1.id ∧
    ((get_or_create_user cu (get_or_create_user cu db n1).2 n2).2.users.filter
      (fun v => v.auth_id == cu.id)).length = 1 ∧
    ((∀ u ∈ db.users, u.auth_id ≠ cu.id) →
      (get_or_create_user cu db n1).1 = seedUser cu db.nextId n1 ∧
      (get_or_create_user cu db n1).2.users = db.users ++ [(get_or_create_user cu db n1).1]) ∧
    (get_or_create_user cu (get_or_create_user cu db n1).2 n2).2.users =
      (get_or_create_user cu db n1).2.users.map
        (fun v => if v.id == (get_or_create_user cu db n1).1.id then
            { v with last_login_at := n2 } else v) ∧
    (get_or_create_user cu (get_or_create_user cu db n1).2 n2).2.solutions =
      (get_or_create_user cu db n1).2.solutions ∧
    (get_or_create_user cu (get_or_create_user cu db n1).2 n2).2.bookmarks =
      (get_or_create_user cu db n1).2.bookmarks ∧
    (get_or_create_user cu (get_or_create_user cu db n1).2 n2).2.nextId =
      (get_or_create_user cu db n1).2.nextId := by
  cases hfind : db.users.find? (fun v => v.auth_id == cu.id) with
  | some u =>
    have hu_mem : u ∈ db.users := List.mem_of_find?_eq_some hfind
    have hu_p0 := List.find?_some hfind
    have hu_p : (u.auth_id == cu.id) = true := hu_p0
    have hid : ∀ v ∈ db.users, v.id = u.id → v = u := fun v hv hveq =>
      List.inj_on_of_nodup_map huid hv hu_mem hveq
    have hcall1 : get_or_create_user cu db n1 =
        ({ u with last_login_at := n1 },
         { db with users := db.users.map (fun v => if v.id == u.id then { u with last_login_at := n1 } else v) }) := by
      simp only [get_or_create_user, hfind]
    have hfind1 : (db.users.map (fun v => if v.id == u.id then { u with last_login_at := n1 } else v)).find?
        (fun v => v.auth_id == cu.id) = some { u with last_login_at := n1 } :=
      find?_auth_after_replace cu.id db.users u.id u _ hfind rfl hid rfl
    have hid1 : ∀ v ∈ db.users.map (fun w => if w.id == u.id then { u with last_login_at := n1 } else w),
        v.id = u.id → v = { u with last_login_at := n1 } := by
      intro v hv hveq
      obtain ⟨w, hw, hweq⟩ := List.mem_map.mp hv
      by_cases hwid : (w.id == u.id) = true
      · rw [if_pos hwid] at hweq
        exact hweq.symm
      · rw [if_neg hwid] at hweq
        subst hweq
        exact absurd (beq_iff_eq.mpr hveq) hwid
    have hcall2 : get_or_create_user cu (get_or_create_user cu db n1).2 n2 =
        ({ u with last_login_at := n2 },
         { db with users := (db.users.map (fun v => if v.id == u.id then { u with last_login_at := n1 } else v)).map (fun v => if v.id == u.id then { u with last_login_at := n2 } else v) }) := by
      rw [hcall1]
      simp only [get_or_create_user, hfind1]
    refine ⟨?_, ?_, ?_, ?_, ?_, ?_, ?_⟩
    · rw [hcall2, hcall1]
    · rw [hcall2]
      have hlen1 := filter_auth_length_replace cu.id
        (db.users.map (fun v => if v.id == u.id then { u with last_login_at := n1 } else v))
        u.id { u with last_login_at := n1 } { u with last_login_at := n2 } rfl hid1
      have hlen2 := filter_auth_length_replace cu.id db.users u.id u
        { u with last_login_at := n1 } rfl hid
      have hsing := filter_auth_singleton cu.id db.users u hauth hu_mem hu_p
      simp only []
      rw [hlen1, hlen2, hsing]
      rfl
    · intro hnever
      exact absurd (beq_iff_eq.mp hu_p) (hnever u hu_mem)
    · rw [hcall2, hcall1]
      simp only []
      apply List.map_congr_left
      intro v hv
      by_cases hvid : (v.id == u.id) = true
      · have hvu := hid1 v hv (beq_iff_eq.mp hvid)
        rw [if_pos hvid, if_pos hvid, hvu]
      · rw [if_neg hvid, if_neg hvid]
    · rw [hcall2, hcall1]
    · rw [hcall2, hcall1]
    · rw [hcall2, hcall1]
  | none =>
    have hnone : ∀ v ∈ db.users, ¬ (v.auth_id == cu.id) = true := List.find?_eq_none.mp hfind
    have hcall1 : get_or_create_user cu db n1 =
        (seedUser cu db.nextId n1,
         { db with users := db.users ++ [seedUser cu db.nextId n1], nextId := db.nextId + 1 }) := by
      simp only [get_or_create_user, hfind, seedUser]
    have hfind1 : (db.users ++ [seedUser cu db.nextId n1]).find?
        (fun v => v.auth_id == cu.id) = some (seedUser cu db.nextId n1) := by
      rw [List.find?_append, hfind]
      simp [seedUser]
    have hid1 : ∀ v ∈ db.users ++ [seedUser cu db.nextId n1],
        v.id = (seedUser cu db.nextId n1).id → v = seedUser cu db.nextId n1 := by
      intro v hv hveq
      rcases List.mem_append.mp hv with hv1 | hv2
      · have := hfresh v hv1
        rw [show (seedUser cu db.nextId n1).id = db.nextId from rfl] at hveq
        omega
      · exact List.mem_singleton.mp hv2
    have hcall2 : get_or_create_user cu (get_or_create_user cu db n1).2 n2 =
        ({ seedUser cu db.nextId n1 with last_login_at := n2 },
         { db with users := (db.users ++ [seedUser cu db.nextId n1]).map (fun v => if v.id == (seedUser cu db.nextId n1).id then { seedUser cu db.nextId n1 with last_login_at := n2 } else v), nextId := db.nextId + 1 }) := by
      rw [hcall1]
      simp only [get_or_create_user, hfind1]
    refine ⟨?_, ?_, ?_, ?_, ?_, ?_, ?_⟩
    · rw [hcall2, hcall1]
    · rw [hcall2]
      have hlen1 := filter_auth_length_replace cu.id (db.users ++ [seedUser cu db.nextId n1])
        (seedUser cu db.nextId n1).id (seedUser cu db.nextId n1)
        { seedUser cu db.nextId n1 with last_login_at := n2 } rfl hid1
      simp only []
      rw [hlen1, List.filter_append]
      have hnil : db.users.filter (fun v => v.auth_id == cu.id) = [] :=
        List.filter_eq_nil_iff.mpr hnone
      rw [hnil]
      simp [seedUser]
    · intro _
      rw [hcall1]
      exact ⟨rfl, rfl⟩
    · rw [hcall2, hcall1]
      simp only []
      apply List.map_congr_left
      intro v hv
      by_cases hvid : (v.id == (seedUser cu db.nextId n1).id) = true
      · have hvu := hid1 v hv (beq_iff_eq.mp hvid)
        rw [if_pos hvid, if_pos hvid, hvu]
      · rw [if_neg hvid, if_neg hvid]
    · rw [hcall2, hcall1]
    · rw [hcall2, hcall1]
    · rw [hcall2, hcall1]

/-- A store holding one provisioned user. -/
def dbOneUser : DB :=
  { users := [{ id := 3, auth_id := "subj-a", email := "a@b.c", full_name := "",
                is_active := true, is_verified := true, last_login_at := 1 }],
    solutions := [], bookmarks := [], nextId := 4 }

/-- A verified identity for a never-seen subject. -/
def cuB : CurrentUser := { id := "subj-b", email := some "b@b.c", role := "authenticated" }

/-- Witness for C6: provisioning the never-seen subject "subj-b" twice
on `dbOneUser` returns the same id both times, leaves exactly one row
for it, and seeds the first insert from the identity. -/
theorem get_or_create_user_idempotent_witness :
    (get_or_create_user cuB dbOneUser 10).1.id =
      (get_or_create_user cuB (get_or_create_user cuB dbOneUser 10).2 11).1.id ∧
    ((get_or_create_user cuB (get_or_create_user cuB dbOneUser 10).2 11).2.users.filter
      (fun v => v.auth_id == cuB.id)).length = 1 ∧
    (get_or_create_user cuB dbOneUser 10).1 =
      { id := 4, auth_id := "subj-b", email := "b@b.c", full_name := "",
        is_active := true, is_verified := true, last_login_at := 10 } :=
  have h := get_or_create_user_idempotent cuB dbOneUser 10 11
    (by decide) (by decide) (by decide)
  ⟨h.1, h.2.1, (h.2.2.1 (by decide)).1⟩

-- ===========================================================================
-- C1: ownership scoping
-- ===========================================================================

/-- The store after user 1 toggles a bookmark onto user 2's solution 7:
the toggle succeeds instead of returning the owner-scoped 404. -/
def dbToggleAfter : DB :=
  { dbToggle with bookmarks := dbToggle.bookmarks ++ [newBookmark 80 1 7 5], nextId := 81 }

/-- Counterexample to C1 as stated: in `dbToggle` the only solution
with id 7 belongs to user 2, yet user 1's `toggle_bookmark` on id 7
does not respond with the owner-scoped 404 — it observes the foreign
row and bookmarks it, because the solution lookup in `toggle_bookmark`
is `select(Solution).where(Solution.id == solution_id)` with no user
filter. -/
theorem toggle_bookmark_observes_foreign_solution :
    (∀ s ∈ dbToggle.solutions, s.id = 7 → s.user_id ≠ 1) ∧
    toggle_bookmark 1 7 dbToggle 5 =
      .ok ({ bookmarked := true, message := "Bookmark added" }, dbToggleAfter) :=
  ⟨by decide, by decide⟩

/-- Membership in a descending insertion comes from the inserted
element or the base list. -/
lemma mem_of_mem_insertByCreatedDesc (s x : SolutionRow) (l : List SolutionRow)
    (hx : x ∈ insertByCreatedDesc s l) : x = s ∨ x ∈ l := by
  induction l with
  | nil => simpa [insertByCreatedDesc] using hx
  | cons t ts ih =>
    rw [insertByCreatedDesc] at hx
    by_cases hc : t.created_at ≤ s.created_at
    · rw [if_pos hc] at hx
      rcases List.mem_cons.mp hx with h | h
      · exact Or.inl h
      · exact Or.inr h
    · rw [if_neg hc] at hx
      rcases List.mem_cons.mp hx with h | h
      · exact Or.inr (h ▸ List.mem_cons_self t ts)
      · rcases ih h with h2 | h2
        · exact Or.inl h2
        · exact Or.inr (List.mem_cons_of_mem t h2)

/-- Membership after sorting newest-first implies membership before. -/
lemma mem_of_mem_sortByCreatedDesc (x : SolutionRow) (l : List SolutionRow)
    (hx : x ∈ sortByCreatedDesc l) : x ∈ l := by
  induction l with
  | nil => simp [sortByCreatedDesc] at hx
  | cons c cs ih =>
    rw [sortByCreatedDesc, List.foldr_cons] at hx
    rcases mem_of_mem_insertByCreatedDesc c x _ hx with h | h
    · exact h ▸ List.mem_cons_self c cs
    · exact List.mem_cons_of_mem c (ih h)

/-- Membership in a bookmark descending insertion. -/
lemma mem_of_mem_insertBkByCreatedDesc (b x : BookmarkRow) (l : List BookmarkRow)
    (hx : x ∈ insertBkByCreatedDesc b l) : x = b ∨ x ∈ l := by
  induction l with
  | nil => simpa [insertBkByCreatedDesc] using hx
  | cons c cs ih =>
    rw [insertBkByCreatedDesc] at hx
    by_cases hc : c.created_at ≤ b.created_at
    · rw [if_pos hc] at hx
      rcases List.mem_cons.mp hx with h | h
      · exact Or.inl h
      · exact Or.inr h
    · rw [if_neg hc] at hx
      rcases List.mem_cons.mp hx with h | h
      · exact Or.inr (h ▸ List.mem_cons_self c cs)
      · rcases ih h with h2 | h2
        · exact Or.inl h2
        · exact Or.inr (List.mem_cons_of_mem c h2)

/-- Membership after the bookmark sort implies membership before. -/
lemma mem_of_mem_bkSort (x : BookmarkRow) (l : List BookmarkRow)
    (hx : x ∈ l.foldr insertBkByCreatedDesc []) : x ∈ l := by
  induction l with
  | nil => simp at hx
  | cons c cs ih =>
    rw [List.foldr_cons] at hx
    rcases mem_of_mem_insertBkByCreatedDesc c x _ hx with h | h
    · exact h ▸ List.mem_cons_self c cs
    · exact List.mem_cons_of_mem c (ih h)

/-- Membership in an ascending-by-distance insertion. -/
lemma mem_of_mem_insertByDistAsc (dist : SolutionRow → Int) (s x : SolutionRow)
    (l : List SolutionRow) (hx : x ∈ insertByDistAsc dist s l) : x = s ∨ x ∈ l := by
  induction l with
  | nil => simpa [insertByDistAsc] using hx
  | cons t ts ih =>
    rw [insertByDistAsc] at hx
    by_cases hc : dist s ≤ dist t
    · rw [if_pos hc] at hx
      rcases List.mem_cons.mp hx with h | h
      · exact Or.inl h
      · exact Or.inr h
    · rw [if_neg hc] at hx
      rcases List.mem_cons.mp hx with h | h
      · exact Or.inr (h ▸ List.mem_cons_self t ts)
      · rcases ih h with h2 | h2
        · exact Or.inl h2
        · exact Or.inr (List.mem_cons_of_mem t h2)

/-- Membership after the distance sort implies membership before. -/
lemma mem_of_mem_distSort (dist : SolutionRow → Int) (x : SolutionRow)
    (l : List SolutionRow) (hx : x ∈ l.foldr (insertByDistAsc dist) []) : x ∈ l := by
  induction l with
  | nil => simp at hx
  | cons c cs ih =>
    rw [List.foldr_cons] at hx
    rcases mem_of_mem_insertByDistAsc dist c x _ hx with h | h
    · exact h ▸ List.mem_cons_self c cs
    · exact List.mem_cons_of_mem c (ih h)

/-- Membership through a conditional filter (filter in the then
branch). -/
lemma mem_of_mem_iteFilterThen {α} (c : Bool) (p : α → Bool) (l : List α) (x : α)
    (hx : x ∈ if c then l.filter p else l) : x ∈ l := by
  by_cases hc : c = true
  · rw [if_pos hc] at hx
    exact List.mem_of_mem_filter hx
  · rw [if_neg hc] at hx
    exact hx

/-- Membership through a conditional filter (filter in the else
branch). -/
lemma mem_of_mem_iteFilterElse {α} (c : Bool) (p : α → Bool) (l : List α) (x : α)
    (hx : x ∈ if c then l else l.filter p) : x ∈ l := by
  by_cases hc : c = true
  · rw [if_pos hc] at hx
    exact hx
  · rw [if_neg hc] at hx
    exact List.mem_of_mem_filter hx

/-- C1 (amended): ownership scoping of every Solution and Bookmark
operation except the solution-existence check of `toggle_bookmark`.
Under duplicate-free primary keys: the list endpoint and semantic
search return only the caller's solution rows; a successful get-by-id
was an owned row; update and delete (both paths) never touch another
user's solution rows; bookmark listing and the bookmark-existence
check read only the caller's bookmark rows; bookmark deletion and
toggling never remove another user's bookmark rows, and toggling adds
rows only for the caller.  (The toggle's solution lookup itself is not
owner-filtered — see the counterexample.) -/
theorem ownership_scoped_operations (uid : Nat) (db : DB)
    (hsolids : (db.solutions.map SolutionRow.id).Nodup)
    (hbkids : (db.bookmarks.map BookmarkRow.id).Nodup) :
    (∀ page ps lang tag inc, ∀ s ∈ listSolutionRows uid page ps lang tag inc db,
      s.user_id = uid) ∧
    (∀ sid r, get_solution uid sid db = .ok r →
      ∃ s ∈ db.solutions, s.user_id = uid ∧ s.id = sid) ∧
    (∀ sid u f s' db', update_solution uid sid u f db = .ok (s', db') →
      s'.user_id = uid ∧ ∀ t ∈ db.solutions, t.user_id ≠ uid → t ∈ db'.solutions) ∧
    (∀ sid perm db', delete_solution uid sid perm db = .ok db' →
      ∀ t ∈ db.solutions, t.user_id ≠ uid → t ∈ db'.solutions) ∧
    (∀ b ∈ get_bookmarks uid db, b.user_id = uid) ∧
    (∀ sid, check_bookmark uid sid db = true →
      ∃ b ∈ db.bookmarks, b.user_id = uid ∧ b.solution_id = sid) ∧
    (∀ sid db', delete_bookmark uid sid db = .ok db' →
      ∀ b ∈ db.bookmarks, b.user_id ≠ uid → b ∈ db'.bookmarks) ∧
    (∀ sid now r db', toggle_bookmark uid sid db now = .ok (r, db') →
      (∀ b ∈ db.bookmarks, b.user_id ≠ uid → b ∈ db'.bookmarks) ∧
      (∀ b ∈ db'.bookmarks, b ∈ db.bookmarks ∨ b.user_id = uid)) ∧
    (∀ sim dist minSim lim, ∀ s ∈ semanticSearchRows uid sim dist minSim lim db,
      s.user_id = uid) := by
  refine ⟨?_, ?_, ?_, ?_, ?_, ?_, ?_, ?_, ?_⟩
  · -- list endpoint
    intro page ps lang tag inc s hs
    simp only [listSolutionRows] at hs
    have h1 := List.mem_of_mem_take hs
    have h2 := List.mem_of_mem_drop h1
    have h3 := mem_of_mem_sortByCreatedDesc _ _ h2
    have h4 := mem_of_mem_iteFilterThen _ _ _ _ h3
    have h5 := mem_of_mem_iteFilterThen _ _ _ _ h4
    have h6 := mem_of_mem_iteFilterElse _ _ _ _ h5
    have h7 := (List.mem_filter.mp h6).2
    exact beq_iff_eq.mp h7
  · -- get by id
    intro sid r hok
    cases hf : findOwnedActive uid sid db with
    | none => simp [get_solution, hf] at hok
    | some s =>
      have hmem : s ∈ db.solutions := List.mem_of_find?_eq_some hf
      have hp0 := List.find?_some hf
      have hp : (s.id == sid && s.user_id == uid && !s.is_archived) = true := hp0
      simp only [Bool.and_eq_true, beq_iff_eq] at hp
      exact ⟨s, hmem, hp.1.2, hp.1.1⟩
  · -- update
    intro sid u f s' db' hok
    cases hf : findOwnedActive uid sid db with
    | none => simp [update_solution, hf] at hok
    | some s =>
      have hmem : s ∈ db.solutions := List.mem_of_find?_eq_some hf
      have hp0 := List.find?_some hf
      have hp : (s.id == sid && s.user_id == uid && !s.is_archived) = true := hp0
      simp only [Bool.and_eq_true, beq_iff_eq] at hp
      simp only [update_solution, hf] at hok
      rw [Except.ok.injEq, Prod.mk.injEq] at hok
      obtain ⟨hs2, hdb2⟩ := hok
      constructor
      · rw [← hs2]
        split
        · split
          · exact hp.1.2
          · exact hp.1.2
        · exact hp.1.2
      · intro t ht htne
        rw [← hdb2]
        have htid : (t.id == s.id) = false := by
          rw [beq_eq_false_iff_ne]
          intro hte
          exact htne ((List.inj_on_of_nodup_map hsolids ht hmem hte) ▸ hp.1.2)
        simp only []
        refine List.mem_map.mpr ⟨t, ht, ?_⟩
        rw [htid]
        simp
  · -- delete, both paths
    intro sid perm db' hok
    cases perm
    · -- soft path
      simp only [delete_solution, Bool.false_eq_true, if_false] at hok
      by_cases hm : ((db.solutions.filter
          (fun s => s.id == sid && s.user_id == uid && !s.is_archived)).length == 0) = true
      · rw [if_pos hm] at hok
        exact Except.noConfusion hok
      · rw [if_neg hm] at hok
        rw [Except.ok.injEq] at hok
        intro t ht htne
        rw [← hok]
        have hcond : (t.id == sid && t.user_id == uid && !t.is_archived) = false := by
          rw [Bool.and_eq_false_iff]
          left
          rw [Bool.and_eq_false_iff]
          right
          rw [beq_eq_false_iff_ne]
          exact htne
        simp only []
        refine List.mem_map.mpr ⟨t, ht, ?_⟩
        rw [hcond]
        simp
    · -- permanent path
      simp only [delete_solution, if_true] at hok
      cases hf : db.solutions.find? (fun s => s.id == sid && s.user_id == uid) with
      | none => rw [hf] at hok; exact Except.noConfusion hok
      | some s =>
        rw [hf, Except.ok.injEq] at hok
        have hmem : s ∈ db.solutions := List.mem_of_find?_eq_some hf
        have hp0 := List.find?_some hf
        have hp : (s.id == sid && s.user_id == uid) = true := hp0
        simp only [Bool.and_eq_true, beq_iff_eq] at hp
        intro t ht htne
        rw [← hok]
        have htid : (t.id == s.id) = false := by
          rw [beq_eq_false_iff_ne]
          intro hte
          exact htne ((List.inj_on_of_nodup_map hsolids ht hmem hte) ▸ hp.2)
        simp only []
        refine List.mem_filter.mpr ⟨ht, ?_⟩
        rw [htid]
        simp
  · -- bookmark listing
    intro b hb
    have h1 := mem_of_mem_bkSort _ _ hb
    have h2 := (List.mem_filter.mp h1).2
    exact beq_iff_eq.mp h2
  · -- bookmark existence check
    intro sid hchk
    rw [check_bookmark, isBookmarked, List.any_eq_true] at hchk
    obtain ⟨b, hb, hp⟩ := hchk
    simp only [Bool.and_eq_true, beq_iff_eq] at hp
    exact ⟨b, hb, hp.1, hp.2⟩
  · -- bookmark deletion
    intro sid db' hok
    by_cases hrem : ((db.bookmarks.filter
        (fun b => b.user_id == uid && b.solution_id == sid)).length == 0) = true
    · simp only [delete_bookmark, hrem, if_true] at hok
      exact Except.noConfusion hok
    · simp only [delete_bookmark, hrem, Bool.false_eq_true, if_false,
        Except.ok.injEq] at hok
      intro b hb hbne
      rw [← hok]
      have hcond : (b.user_id == uid && b.solution_id == sid) = false := by
        rw [Bool.and_eq_false_iff]
        left
        rw [beq_eq_false_iff_ne]
        exact hbne
      simp only []
      refine List.mem_filter.mpr ⟨hb, ?_⟩
      rw [hcond]
      simp
  · -- bookmark toggle row effects
    intro sid now r db' hok
    cases hfs : db.solutions.find? (fun s => s.id == sid) with
    | none => simp [toggle_bookmark, hfs] at hok
    | some y =>
      cases hfb : db.bookmarks.find? (fun b => b.user_id == uid && b.solution_id == sid) with
      | some b0 =>
        have hb0mem : b0 ∈ db.bookmarks := List.mem_of_find?_eq_some hfb
        have hb0p0 := List.find?_some hfb
        have hb0p : (b0.user_id == uid && b0.solution_id == sid) = true := hb0p0
        simp only [Bool.and_eq_true, beq_iff_eq] at hb0p
        simp only [toggle_bookmark, hfs, hfb, Except.ok.injEq, Prod.mk.injEq] at hok
        obtain ⟨-, hdb2⟩ := hok
        constructor
        · intro b hb hbne
          rw [← hdb2]
          have hbid : (b.id == b0.id) = false := by
            rw [beq_eq_false_iff_ne]
            intro hbe
            exact hbne ((List.inj_on_of_nodup_map hbkids hb hb0mem hbe) ▸ hb0p.1)
          simp only []
          refine List.mem_filter.mpr ⟨hb, ?_⟩
          rw [hbid]
          simp
        · intro b hb
          rw [← hdb2] at hb
          exact Or.inl (List.mem_of_mem_filter hb)
      | none =>
        simp only [toggle_bookmark, hfs, hfb, Except.ok.injEq, Prod.mk.injEq] at hok
        obtain ⟨-, hdb2⟩ := hok
        constructor
        · intro b hb _
          rw [← hdb2]
          exact List.mem_append.mpr (Or.inl hb)
        · intro b hb
          rw [← hdb2] at hb
          rcases List.mem_append.mp hb with h | h
          · exact Or.inl h
          · exact Or.inr (congrArg BookmarkRow.user_id (List.mem_singleton.mp h))
  · -- semantic search rows
    intro sim dist minSim lim s hs
    simp only [semanticSearchRows] at hs
    have h1 := List.mem_of_mem_take hs
    have h2 := mem_of_mem_distSort dist _ _ h1
    have h3 := (List.mem_filter.mp h2).2
    simp only [Bool.and_eq_true, beq_iff_eq] at h3
    exact h3.1.1.2

/-- A store with two users' solutions and bookmarks. -/
def dbScope : DB :=
  { users := [], nextId := 90,
    solutions := [{ id := 10, user_id := 1, title := "mine", description := "d",
                    code := "c", language := "python", tags := ["x"],
                    embedding := some [1], is_archived := false, created_at := 2 },
                  { id := 20, user_id := 2, title := "theirs", description := "d",
                    code := "c", language := "python", tags := ["x"],
                    embedding := some [2], is_archived := false, created_at := 3 }],
    bookmarks := [{ id := 30, user_id := 1, solution_id := 20, created_at := 4 },
                  { id := 31, user_id := 2, solution_id := 20, created_at := 5 }] }

/-- User 1's solution row in `dbScope`. -/
def solMine : SolutionRow :=
  { id := 10, user_id := 1, title := "mine", description := "d", code := "c",
    language := "python", tags := ["x"], embedding := some [1],
    is_archived := false, created_at := 2 }

/-- User 2's bookmark row in `dbScope`. -/
def bkTheirs : BookmarkRow := { id := 31, user_id := 2, solution_id := 20, created_at := 5 }

/-- `dbScope` after user 1 deletes its bookmark of solution 20. -/
def dbScopeDeleted : DB := { dbScope with bookmarks := [bkTheirs] }

/-- Witness for C1 (amended): user 1's first list page contains only
the row owned by user 1, and deleting user 1's bookmark of solution 20
leaves user 2's bookmark row in place. -/
theorem ownership_scoped_operations_witness :
    solMine.user_id = 1 ∧ bkTheirs ∈ dbScopeDeleted.bookmarks :=
  ⟨(ownership_scoped_operations 1 dbScope (by decide) (by decide)).1
      1 20 none none false solMine (by decide),
   (ownership_scoped_operations 1 dbScope (by decide) (by decide)).2.2.2.2.2.2.1
      20 dbScopeDeleted (by decide) bkTheirs (by decide) (by decide)⟩

end DevDocs
